import Mathlib

/-!
FitWise statistics engine — a shallow embedding.

This file embeds the statistics and derived-metrics engine of the FitWise
workout logger (the `StatsView` computations together with the domain helpers
`getBodyPart` and `calculateOneRepMax` from `types.ts`) and proves the
specified properties about it.

Modelling conventions:

* JavaScript numbers are modelled as rationals (`ℚ`); counts as `ℕ`.
* Optional record fields are `Option` values; the JS idiom `x || 0` becomes
  `Option.getD x 0` (for a present `0` both give `0`), while `x || d` with a
  nonzero default `d` is modelled by `jsOr`, which is faithful to JS
  truthiness (a present `0` also yields the default).
* `Math.max(...xs)` over a possibly empty list is modelled in `WithBot ℚ`,
  whose bottom element `⊥` plays the role of `-Infinity`.
* JavaScript's `Array.prototype.sort` with a consistent comparator is a
  stable sort; any two stable sorts with the same total preorder produce the
  same list, so it is modelled by `List.insertionSort` on the corresponding
  relation.
* Workout dates are stored as ISO strings and compared via
  `new Date(s).getTime()`; the embedding carries the parsed timestamp
  directly as an integer.  Locale-dependent display strings (chart labels,
  weekday names) are presentation output and are not part of any embedded
  computation.
* JS objects used as dictionaries are association lists in property
  insertion order (exercise and body-part names are treated as non-index
  keys), matching `Object.entries` enumeration order.
-/

/-- Source `type` field of an exercise: `'strength' | 'cardio'` from `types.ts`. -/
inductive ExerciseType where
  | strength
  | cardioKind
deriving DecidableEq

/-- Source `WorkoutSet` from `types.ts`: one performed set; numeric fields optional. -/
structure WorkoutSet where
  reps : Option ℕ
  weight : Option ℚ
  rpe : Option ℚ
  distance : Option ℚ
  duration : Option ℚ
  completed : Bool
deriving DecidableEq

/-- Source `Exercise` from `types.ts`. -/
structure Exercise where
  name : String
  type : ExerciseType
  sets : List WorkoutSet
deriving DecidableEq

/-- Source `Workout` from `types.ts`; `date` is the parsed timestamp of the ISO
date string (the value `new Date(w.date).getTime()` used for ordering). -/
structure Workout where
  date : Int
  name : String
  exercises : List Exercise
  durationMinutes : Option ℚ
deriving DecidableEq

/-- Source `DEFAULT_CARDIO_EXERCISES` from `types.ts`. -/
def DEFAULT_CARDIO_EXERCISES : List String :=
  ["Running", "Cycling", "Rowing", "Jump Rope", "Elliptical",
   "Stair Climber", "Swimming", "Walking", "Hiking", "Sprinting"]

/-- Source `BODY_PART_MAPPING` from `types.ts`, as an association list. -/
def BODY_PART_MAPPING : List (String × String) :=
  [("Squat", "Legs"), ("Bench Press", "Chest"), ("Deadlift", "Back"),
   ("Overhead Press", "Shoulders"), ("Pull Up", "Back"),
   ("Dumbbell Row", "Back"), ("Lunges", "Legs"), ("Leg Press", "Legs"),
   ("Face Pull", "Shoulders"), ("Bicep Curl", "Biceps"),
   ("Tricep Extension", "Triceps"), ("Lateral Raise", "Shoulders"),
   ("Push Up", "Chest"), ("Dip", "Triceps"), ("Skullcrusher", "Triceps"),
   ("Calf Raise", "Legs"), ("Bulgarian Split Squat", "Legs"),
   ("Romanian Deadlift", "Legs"), ("Incline Bench Press", "Chest"),
   ("Hammer Curl", "Biceps"), ("Preacher Curl", "Biceps"),
   ("Leg Extension", "Legs"), ("Leg Curl", "Legs"), ("Plank", "Abs"),
   ("Crunch", "Abs"), ("Russian Twist", "Abs"),
   ("Hanging Leg Raise", "Abs"), ("Cable Fly", "Chest"),
   ("Lat Pulldown", "Back"), ("Seated Row", "Back"),
   ("Front Raise", "Shoulders"), ("Reverse Fly", "Shoulders"),
   ("Wrist Curl", "Forearms"), ("Chin Up", "Back")]

/-- First-match association-list lookup (JS own-property access). -/
def alookup {β : Type} (k : String) : List (String × β) → Option β
  | [] => none
  | (k1, v) :: rest => if k1 = k then some v else alookup k rest

/-- JS object property write `o[k] = v`: replaces the value in place when the
key exists (keeping its insertion position), otherwise appends the key. -/
def aupsert {β : Type} (k : String) (v : β) : List (String × β) → List (String × β)
  | [] => [(k, v)]
  | (k1, v1) :: rest => if k1 = k then (k, v) :: rest else (k1, v1) :: aupsert k v rest

/-- Source `getBodyPart` from `types.ts`.  The custom-mapping branch is guarded by
JS truthiness of the looked-up value (`customMapping && customMapping[name]`),
so a present empty-string value falls through to the built-in dictionary;
likewise `BODY_PART_MAPPING[name] || "Other"`. -/
def getBodyPart (exerciseName : String) (customMapping : Option (List (String × String))) : String :=
  if exerciseName ∈ DEFAULT_CARDIO_EXERCISES then "Cardio"
  else
    match customMapping with
    | some m =>
      match alookup exerciseName m with
      | some v =>
        if v = "" then
          match alookup exerciseName BODY_PART_MAPPING with
          | some w => if w = "" then "Other" else w
          | none => "Other"
        else v
      | none =>
        match alookup exerciseName BODY_PART_MAPPING with
        | some w => if w = "" then "Other" else w
        | none => "Other"
    | none =>
      match alookup exerciseName BODY_PART_MAPPING with
      | some w => if w = "" then "Other" else w
      | none => "Other"

/-- JS `Math.round`: round to nearest integer, halves toward positive infinity. -/
def jsRound (x : ℚ) : ℤ := ⌊x + 1 / 2⌋

/-- Source `calculateOneRepMax` from `types.ts` (Epley formula). -/
def calculateOneRepMax (weight : ℚ) (reps : ℕ) : ℚ :=
  if reps = 0 then 0
  else if reps = 1 then weight
  else (jsRound (weight * (1 + (reps : ℚ) / 30)) : ℚ)

/-- C4 counterexample input: a custom mapping carrying an empty-string value. -/
def emptyValueMapping : List (String × String) := [("Bench Press", "")]

/-- C4 (counterexample).  The claim says classification returns "the
custom mapping's value when the name is present there"; but for a custom
mapping in which "Bench Press" is present with value `""`, the code's JS
truthiness guard skips the custom branch and returns the built-in value
`"Chest"`, not the present custom value. -/
theorem getBodyPart_custom_present_not_used :
    getBodyPart "Bench Press" (some emptyValueMapping) = "Chest" ∧
      alookup "Bench Press" emptyValueMapping = some "" ∧ ("Chest" : String) ≠ "" := by
  refine ⟨by decide, by decide, by decide⟩

/-- C4 (amended).  Classification precedence: the fixed cardio list wins
over everything (a custom override can never change a cardio
classification); otherwise a custom-mapping entry wins over the built-in
dictionary whenever its value is non-empty (an empty-string custom value is
falsy in JS and falls through); otherwise the built-in dictionary's
non-empty value is used; otherwise `"Other"`. -/
theorem getBodyPart_precedence (name : String) (m : Option (List (String × String))) :
    (name ∈ DEFAULT_CARDIO_EXERCISES → getBodyPart name m = "Cardio") ∧
    (name ∉ DEFAULT_CARDIO_EXERCISES →
      ∀ l v, m = some l → alookup name l = some v → v ≠ "" →
        getBodyPart name m = v) ∧
    (name ∉ DEFAULT_CARDIO_EXERCISES →
      ∀ l, m = some l → (alookup name l = none ∨ alookup name l = some "") →
        getBodyPart name m = getBodyPart name none) ∧
    (name ∉ DEFAULT_CARDIO_EXERCISES →
      getBodyPart name none =
        (match alookup name BODY_PART_MAPPING with
          | some w => if w = "" then "Other" else w
          | none => "Other")) := by
  refine ⟨fun h => ?_, fun h l v hm hl hv => ?_, fun h l hm hl => ?_, fun h => ?_⟩
  · simp [getBodyPart, h]
  · subst hm
    simp [getBodyPart, h, hl, hv]
  · subst hm
    rcases hl with hl | hl <;> simp [getBodyPart, h, hl]
  · simp [getBodyPart, h]

/-- Witness for C4 (amended): an exercise named identically to a cardio
entry but present in a custom body-part override still classifies as
`"Cardio"`. -/
theorem getBodyPart_precedence_witness :
    getBodyPart "Running" (some [("Running", "Legs")]) = "Cardio" :=
  (getBodyPart_precedence "Running" (some [("Running", "Legs")])).1 (by decide)

/-- C5.  Epley estimated one-rep max: `reps = 0` yields `0`; `reps = 1`
yields the weight exactly; for `reps > 1` the result is
`round(weight * (1 + reps/30))` — an integer within `1/2` of the exact Epley
value, rounded with the fixed half-up rule `⌊x + 1/2⌋` — and in particular
`estimate1RM 100 10 = 133`. -/
theorem calculateOneRepMax_spec (w : ℚ) (r : ℕ) :
    calculateOneRepMax w 0 = 0 ∧
    calculateOneRepMax w 1 = w ∧
    (1 < r →
      calculateOneRepMax w r = (jsRound (w * (1 + (r : ℚ) / 30)) : ℚ) ∧
      |calculateOneRepMax w r - w * (1 + (r : ℚ) / 30)| ≤ 1 / 2) ∧
    calculateOneRepMax 100 10 = 133 := by
  refine ⟨by simp [calculateOneRepMax], by simp [calculateOneRepMax], fun hr => ⟨?_, ?_⟩, ?_⟩
  · have h0 : r ≠ 0 := by omega
    have h1 : r ≠ 1 := by omega
    simp [calculateOneRepMax, h0, h1]
  · have h0 : r ≠ 0 := by omega
    have h1 : r ≠ 1 := by omega
    simp only [calculateOneRepMax, h0, h1, if_false]
    set x : ℚ := w * (1 + (r : ℚ) / 30) with hx
    rw [abs_le]
    constructor
    · have h := Int.lt_floor_add_one (x + 1 / 2)
      have : x - 1 / 2 < (jsRound x : ℚ) := by
        simp only [jsRound]
        linarith
      linarith
    · have h := Int.floor_le (x + 1 / 2)
      have : (jsRound x : ℚ) ≤ x + 1 / 2 := by
        simp only [jsRound]
        linarith
      linarith
  · norm_num [calculateOneRepMax, jsRound]

/-- Witness for C5 at the concrete input `(100, 10)`. -/
theorem calculateOneRepMax_spec_witness :
    (1 : ℕ) < 10 ∧ calculateOneRepMax 100 10 = (jsRound (100 * (1 + (10 : ℚ) / 30)) : ℚ) :=
  ⟨by norm_num, ((calculateOneRepMax_spec 100 10).2.2.1 (by norm_num)).1⟩

/-- Output shape of `lifetimeStats` in `StatsView`. -/
structure LifetimeStats where
  volume : ℚ
  sets : ℕ
  reps : ℕ
  distance : ℚ
  cardioTime : ℚ
  exercisesCount : ℕ
  workoutsCount : ℕ
deriving DecidableEq

/-- Accumulator of the `lifetimeStats` single pass (the mutable locals of the
source, plus the `distinctExercises` set kept as an insertion-ordered list). -/
structure StatsAcc where
  volume : ℚ
  sets : ℕ
  reps : ℕ
  distance : ℚ
  cardioTime : ℚ
  names : List String

/-- JS `Set.add`: insert a name if not already present (insertion order kept). -/
def insertNew (n : String) (l : List String) : List String :=
  if n ∈ l then l else l ++ [n]

/-- Per-set body of the `lifetimeStats` pass, for an exercise of type `t`. -/
def setStep (t : ExerciseType) (a : StatsAcc) (s : WorkoutSet) : StatsAcc :=
  if t = ExerciseType.cardioKind then
    { a with
      distance := a.distance + s.distance.getD 0
      cardioTime := a.cardioTime + s.duration.getD 0
      sets := a.sets + 1 }
  else
    { a with
      volume := a.volume + s.weight.getD 0 * (s.reps.getD 0 : ℚ)
      reps := a.reps + s.reps.getD 0
      sets := a.sets + 1 }

/-- Per-exercise body of the `lifetimeStats` pass. -/
def exStep (a : StatsAcc) (e : Exercise) : StatsAcc :=
  e.sets.foldl (setStep e.type) { a with names := insertNew e.name a.names }

/-- Per-workout body of the `lifetimeStats` pass. -/
def wStep (a : StatsAcc) (w : Workout) : StatsAcc :=
  w.exercises.foldl exStep a

/-- Source `lifetimeStats` from `StatsView`: one pass over every set of every
exercise of every workout. -/
def lifetimeStats (workouts : List Workout) : LifetimeStats :=
  let a := workouts.foldl wStep ⟨0, 0, 0, 0, 0, []⟩
  { volume := a.volume
    sets := a.sets
    reps := a.reps
    distance := a.distance
    cardioTime := a.cardioTime
    exercisesCount := a.names.length
    workoutsCount := workouts.length }

/-- Specification-side per-exercise volume: `Σ weight*reps` over the sets of
a strength exercise, `0` for a cardio exercise. -/
def exVolumeSpec (e : Exercise) : ℚ :=
  if e.type = ExerciseType.cardioKind then 0
  else (e.sets.map fun s => s.weight.getD 0 * (s.reps.getD 0 : ℚ)).sum

/-- Specification-side per-exercise rep count. -/
def exRepsSpec (e : Exercise) : ℕ :=
  if e.type = ExerciseType.cardioKind then 0
  else (e.sets.map fun s => s.reps.getD 0).sum

/-- Specification-side per-exercise distance (cardio only). -/
def exDistanceSpec (e : Exercise) : ℚ :=
  if e.type = ExerciseType.cardioKind then (e.sets.map fun s => s.distance.getD 0).sum
  else 0

/-- Specification-side per-exercise cardio minutes (cardio only). -/
def exDurationSpec (e : Exercise) : ℚ :=
  if e.type = ExerciseType.cardioKind then (e.sets.map fun s => s.duration.getD 0).sum
  else 0

lemma foldl_setStep_char (t : ExerciseType) (sets : List WorkoutSet) (a : StatsAcc) :
    sets.foldl (setStep t) a =
      { volume := a.volume + (if t = ExerciseType.cardioKind then 0
          else (sets.map fun s => s.weight.getD 0 * (s.reps.getD 0 : ℚ)).sum)
        sets := a.sets + sets.length
        reps := a.reps + (if t = ExerciseType.cardioKind then 0
          else (sets.map fun s => s.reps.getD 0).sum)
        distance := a.distance + (if t = ExerciseType.cardioKind then
          (sets.map fun s => s.distance.getD 0).sum else 0)
        cardioTime := a.cardioTime + (if t = ExerciseType.cardioKind then
          (sets.map fun s => s.duration.getD 0).sum else 0)
        names := a.names } := by
  induction sets generalizing a with
  | nil => simp
  | cons s rest ih =>
    rcases eq_or_ne t ExerciseType.cardioKind with ht | ht
    · subst ht
      simp [List.foldl_cons, setStep, ih, StatsAcc.mk.injEq,
        add_assoc, add_comm, add_left_comm]
    · simp [List.foldl_cons, setStep, ht, ih, StatsAcc.mk.injEq,
        add_assoc, add_comm, add_left_comm]

lemma foldl_exStep_char (exercises : List Exercise) (a : StatsAcc) :
    exercises.foldl exStep a =
      { volume := a.volume + (exercises.map exVolumeSpec).sum
        sets := a.sets + (exercises.map fun e => e.sets.length).sum
        reps := a.reps + (exercises.map exRepsSpec).sum
        distance := a.distance + (exercises.map exDistanceSpec).sum
        cardioTime := a.cardioTime + (exercises.map exDurationSpec).sum
        names := exercises.foldl (fun ns e => insertNew e.name ns) a.names } := by
  induction exercises generalizing a with
  | nil => simp
  | cons e rest ih =>
    simp only [List.foldl_cons, List.map_cons, List.sum_cons, exStep, ih,
      foldl_setStep_char, exVolumeSpec, exRepsSpec, exDistanceSpec, exDurationSpec,
      StatsAcc.mk.injEq]
    rcases eq_or_ne e.type ExerciseType.cardioKind with ht | ht <;>
      simp [ht, add_assoc, add_comm, add_left_comm]

lemma foldl_wStep_char (ws : List Workout) (a : StatsAcc) :
    ws.foldl wStep a =
      { volume := a.volume + (ws.map fun w => (w.exercises.map exVolumeSpec).sum).sum
        sets := a.sets + (ws.map fun w => (w.exercises.map fun e => e.sets.length).sum).sum
        reps := a.reps + (ws.map fun w => (w.exercises.map exRepsSpec).sum).sum
        distance := a.distance + (ws.map fun w => (w.exercises.map exDistanceSpec).sum).sum
        cardioTime := a.cardioTime + (ws.map fun w => (w.exercises.map exDurationSpec).sum).sum
        names := ws.foldl (fun ns w => w.exercises.foldl (fun ns e => insertNew e.name ns) ns) a.names } := by
  induction ws generalizing a with
  | nil => simp
  | cons w rest ih =>
    simp only [List.foldl_cons, List.map_cons, List.sum_cons, wStep, ih,
      foldl_exStep_char, StatsAcc.mk.injEq]
    simp [add_assoc, add_comm, add_left_comm]

/-- C1.  Lifetime totals: the single pass of `lifetimeStats` satisfies —
cardio exercises contribute only distance and cardio minutes (missing fields
as `0`), strength exercises contribute `Σ weight*reps` to volume and
`Σ reps` to reps (missing fields as `0`), and every set of every exercise of
every workout counts exactly once toward `totalSets`, so `totalSets` is the
sum over all exercise instances of `sets.length`. -/
theorem lifetimeStats_correct (ws : List Workout) :
    (lifetimeStats ws).sets = (ws.map fun w => (w.exercises.map fun e => e.sets.length).sum).sum ∧
    (lifetimeStats ws).volume = (ws.map fun w => (w.exercises.map exVolumeSpec).sum).sum ∧
    (lifetimeStats ws).reps = (ws.map fun w => (w.exercises.map exRepsSpec).sum).sum ∧
    (lifetimeStats ws).distance = (ws.map fun w => (w.exercises.map exDistanceSpec).sum).sum ∧
    (lifetimeStats ws).cardioTime = (ws.map fun w => (w.exercises.map exDurationSpec).sum).sum ∧
    (lifetimeStats ws).workoutsCount = ws.length := by
  simp [lifetimeStats, foldl_wStep_char]

/-- A point of the volume-history series (`{fullDate, volume}` in the
source; the locale display string is presentation only). -/
structure VolPoint where
  fullDate : Int
  volume : ℚ
deriving DecidableEq

/-- The ascending-by-timestamp comparator of the volume series
(`(a, b) => new Date(a.fullDate).getTime() - new Date(b.fullDate).getTime()`). -/
def volLe (a b : VolPoint) : Prop := a.fullDate ≤ b.fullDate

instance : DecidableRel volLe := fun a b => Int.decLe a.fullDate b.fullDate

instance : IsTotal VolPoint volLe := ⟨fun a b => Int.le_total a.fullDate b.fullDate⟩

instance : IsTrans VolPoint volLe := ⟨fun _ _ _ h1 h2 => le_trans h1 h2⟩

/-- Per-workout strength volume: the `reduce` of `volumeData` — cardio
exercises are skipped, strength exercises add `Σ weight*reps`. -/
def workoutStrengthVolume (w : Workout) : ℚ :=
  w.exercises.foldl (fun acc ex =>
    if ex.type = ExerciseType.cardioKind then acc
    else acc + ex.sets.foldl (fun sAcc s => sAcc + s.weight.getD 0 * (s.reps.getD 0 : ℚ)) 0) 0

/-- The full volume series of `volumeData`, sorted ascending by timestamp
(stable, as JS `Array.prototype.sort`). -/
def sortedVolumeSeries (workouts : List Workout) : List VolPoint :=
  List.insertionSort volLe (workouts.map fun w => VolPoint.mk w.date (workoutStrengthVolume w))

/-- Source `volumeData` from `StatsView`: map, sort ascending by timestamp, then
`slice(-15)` (keep the last 15 points of the sorted series). -/
def volumeData (workouts : List Workout) : List VolPoint :=
  (sortedVolumeSeries workouts).drop ((sortedVolumeSeries workouts).length - 15)

lemma foldl_add_sum {α : Type} (f : α → ℚ) (l : List α) (c : ℚ) :
    l.foldl (fun acc x => acc + f x) c = c + (l.map f).sum := by
  induction l generalizing c with
  | nil => simp
  | cons x rest ih => simp [ih, add_assoc]

lemma foldl_strengthVolume (exs : List Exercise) (c : ℚ) :
    exs.foldl (fun acc ex => if ex.type = ExerciseType.cardioKind then acc
      else acc + ex.sets.foldl (fun sAcc s => sAcc + s.weight.getD 0 * (s.reps.getD 0 : ℚ)) 0) c
    = c + (exs.map exVolumeSpec).sum := by
  induction exs generalizing c with
  | nil => simp
  | cons e rest ih =>
    rcases eq_or_ne e.type ExerciseType.cardioKind with ht | ht
    · simp [List.foldl_cons, ht, ih, exVolumeSpec]
    · simp only [List.foldl_cons, ih]
      simp [ht, foldl_add_sum, exVolumeSpec, add_assoc]

lemma workoutStrengthVolume_eq (w : Workout) :
    workoutStrengthVolume w = (w.exercises.map exVolumeSpec).sum := by
  simpa [workoutStrengthVolume] using foldl_strengthVolume w.exercises 0

/-- C6.  Volume-history series: the series is sorted ascending by actual
timestamp; its length is `min workouts 15`; every point is a workout's
strength-only volume (`Σ weight*reps` over strength sets, cardio exercises
contributing zero); it is the suffix of the fully sorted series (truncation
to the 15 most recent happens after sorting — every discarded point is no
later than every kept point, never "the first 15 encountered"); and a
cardio-only collection yields an all-zero volume series. -/
theorem volumeData_correct (ws : List Workout) :
    List.Pairwise volLe (volumeData ws) ∧
    (volumeData ws).length = min ws.length 15 ∧
    (∀ p ∈ volumeData ws, ∃ w ∈ ws, p.fullDate = w.date ∧
      p.volume = (w.exercises.map exVolumeSpec).sum) ∧
    sortedVolumeSeries ws =
      (sortedVolumeSeries ws).take ((sortedVolumeSeries ws).length - 15) ++ volumeData ws ∧
    (∀ p ∈ (sortedVolumeSeries ws).take ((sortedVolumeSeries ws).length - 15),
      ∀ q ∈ volumeData ws, volLe p q) ∧
    ((∀ w ∈ ws, ∀ e ∈ w.exercises, e.type = ExerciseType.cardioKind) →
      ∀ p ∈ volumeData ws, p.volume = 0) := by
  have hsorted : List.Sorted volLe (sortedVolumeSeries ws) :=
    List.sorted_insertionSort volLe _
  have hperm : List.Perm (sortedVolumeSeries ws)
      (ws.map fun w => VolPoint.mk w.date (workoutStrengthVolume w)) :=
    List.perm_insertionSort volLe _
  have hlen : (sortedVolumeSeries ws).length = ws.length := by
    simpa using hperm.length_eq
  have hmem : ∀ p ∈ volumeData ws, ∃ w ∈ ws, p.fullDate = w.date ∧
      p.volume = (w.exercises.map exVolumeSpec).sum := by
    intro p hp
    have hp2 : p ∈ sortedVolumeSeries ws := List.mem_of_mem_drop hp
    have hp3 := hperm.mem_iff.mp hp2
    obtain ⟨w, hw, hpw⟩ := List.mem_map.mp hp3
    exact ⟨w, hw, by rw [← hpw], by rw [← hpw]; exact workoutStrengthVolume_eq w⟩
  refine ⟨List.Pairwise.sublist (List.drop_sublist _ _) hsorted, ?_, hmem,
    (List.take_append_drop _ _).symm,
    fun p hp q hq => hsorted.rel_of_mem_take_of_mem_drop hp hq, ?_⟩
  · simp only [volumeData, List.length_drop, hlen]
    omega
  · intro hall p hp
    obtain ⟨w, hw, _, hv⟩ := hmem p hp
    rw [hv]
    apply List.sum_eq_zero
    intro x hx
    obtain ⟨e, he, hex⟩ := List.mem_map.mp hx
    rw [← hex]
    simp [exVolumeSpec, hall w hw e he]

/-- A cardio-only workout used as concrete witness input. -/
def wCardioOnly : Workout :=
  ⟨0, "morning run",
    [⟨"Running", ExerciseType.cardioKind, [⟨none, none, none, some 5, some 30, true⟩]⟩], none⟩

/-- Witness for C6: on a cardio-only collection the (unique) series point has
volume `0`. -/
theorem volumeData_correct_witness : (VolPoint.mk 0 0).volume = 0 :=
  (volumeData_correct [wCardioOnly]).2.2.2.2.2 (by decide) (VolPoint.mk 0 0) (by decide)

/-- Descending-by-set-count comparator of the body-part distribution
(`(a, b) => b.value - a.value`, stable). -/
def bpLe (a b : String × ℕ) : Prop := b.2 ≤ a.2

instance : DecidableRel bpLe := fun a b => Nat.decLe b.2 a.2

instance : IsTotal (String × ℕ) bpLe := ⟨fun a b => Nat.le_total b.2 a.2⟩

instance : IsTrans (String × ℕ) bpLe := ⟨fun _ _ _ h1 h2 => le_trans h2 h1⟩

/-- Per-exercise body of the `bodyPartData` pass: classify the instance
(cardio exercises forced to `"Cardio"` directly) and add `sets.length` to
that label's count. -/
def countsStep (m : Option (List (String × String))) (c : List (String × ℕ)) (e : Exercise) :
    List (String × ℕ) :=
  let part := if e.type = ExerciseType.cardioKind then "Cardio" else getBodyPart e.name m
  aupsert part ((alookup part c).getD 0 + e.sets.length) c

/-- The label-count table of `bodyPartData` before sorting, in
first-encounter label order (JS object insertion order). -/
def bodyPartCounts (workouts : List Workout) (m : Option (List (String × String))) :
    List (String × ℕ) :=
  workouts.foldl (fun c w => w.exercises.foldl (countsStep m) c) []

/-- Source `bodyPartData` from `StatsView`: the label-count table sorted descending
by set count (stable). -/
def bodyPartData (workouts : List Workout) (m : Option (List (String × String))) :
    List (String × ℕ) :=
  List.insertionSort bpLe (bodyPartCounts workouts m)

lemma sum_aupsert_bump (k : String) (n : ℕ) (c : List (String × ℕ)) :
    ((aupsert k ((alookup k c).getD 0 + n) c).map Prod.snd).sum = (c.map Prod.snd).sum + n := by
  induction c with
  | nil => simp [aupsert, alookup]
  | cons p rest ih =>
    rcases eq_or_ne p.1 k with hk | hk
    · simp [aupsert, alookup, hk, add_assoc, add_comm, add_left_comm]
    · simp only [aupsert, alookup, hk, if_false, List.map_cons, List.sum_cons]
      rw [ih]
      omega

lemma sum_countsStep (m : Option (List (String × String))) (c : List (String × ℕ)) (e : Exercise) :
    ((countsStep m c e).map Prod.snd).sum = (c.map Prod.snd).sum + e.sets.length := by
  simp only [countsStep]
  exact sum_aupsert_bump _ _ c

lemma sum_counts_fold_ex (m : Option (List (String × String))) (exs : List Exercise)
    (c : List (String × ℕ)) :
    ((exs.foldl (countsStep m) c).map Prod.snd).sum =
      (c.map Prod.snd).sum + (exs.map fun e => e.sets.length).sum := by
  induction exs generalizing c with
  | nil => simp
  | cons e rest ih => simp [List.foldl_cons, ih, sum_countsStep, add_assoc]

lemma sum_bodyPartCounts (ws : List Workout) (m : Option (List (String × String))) :
    ((bodyPartCounts ws m).map Prod.snd).sum =
      (ws.map fun w => (w.exercises.map fun e => e.sets.length).sum).sum := by
  suffices h : ∀ c : List (String × ℕ),
      (((ws.foldl (fun c w => w.exercises.foldl (countsStep m) c) c)).map Prod.snd).sum =
        (c.map Prod.snd).sum + (ws.map fun w => (w.exercises.map fun e => e.sets.length).sum).sum by
    simpa [bodyPartCounts] using h []
  induction ws with
  | nil => simp
  | cons w rest ih =>
    intro c
    simp [List.foldl_cons, ih, sum_counts_fold_ex, add_assoc]

/-- C7.  Body-part distribution conservation and order: every exercise
instance adds its `sets.length` to exactly one label (cardio instances
forced to `"Cardio"`), so the set counts over all labels of the output sum
to exactly the lifetime `totalSets`; and the output is sorted descending by
set count (the stable sort makes the tie order deterministic:
first-encountered label first). -/
theorem bodyPartData_conservation (ws : List Workout) (m : Option (List (String × String))) :
    ((bodyPartData ws m).map Prod.snd).sum = (lifetimeStats ws).sets ∧
    List.Pairwise bpLe (bodyPartData ws m) := by
  constructor
  · have hperm : List.Perm (bodyPartData ws m) (bodyPartCounts ws m) :=
      List.perm_insertionSort bpLe _
    have := (hperm.map Prod.snd).sum_eq
    rw [this, sum_bodyPartCounts]
    simp [lifetimeStats, foldl_wStep_char]
  · exact List.sorted_insertionSort bpLe _

/-- JS `Math.max(...xs)`: left-to-right maximum, `-Infinity` (`⊥`) when empty. -/
def jsMax (l : List ℚ) : WithBot ℚ :=
  l.foldl (fun acc x => max acc ((x : ℚ) : WithBot ℚ)) ⊥

/-- A point of the progression series (`{fullDate, maxWeight, oneRepMax}`;
the locale display string is presentation only). -/
structure ProgressPoint where
  fullDate : Int
  maxWeight : WithBot ℚ
  oneRepMax : WithBot ℚ
deriving DecidableEq

/-- Ascending-by-timestamp comparator of the progression series. -/
def progLe (a b : ProgressPoint) : Prop := a.fullDate ≤ b.fullDate

instance : DecidableRel progLe := fun a b => Int.decLe a.fullDate b.fullDate

instance : IsTotal ProgressPoint progLe := ⟨fun a b => Int.le_total a.fullDate b.fullDate⟩

instance : IsTrans ProgressPoint progLe := ⟨fun _ _ _ h1 h2 => le_trans h1 h2⟩

/-- JS `String.prototype.toLowerCase()`: lower-case every character. -/
def lowerName (s : String) : String := String.mk (s.data.map Char.toLower)

/-- The case-insensitive name match of `exerciseProgressData`
(`e.name.toLowerCase() === selectedExercise.toLowerCase()`). -/
def nameMatches (sel : String) (e : Exercise) : Bool :=
  lowerName e.name == lowerName sel

/-- Per-workout body of `exerciseProgressData`: take the first exercise
whose name matches case-insensitively; if it exists and is not cardio,
compute the max set weight and best estimated 1RM (missing weight/reps as
`0`); push a point only when `maxWeight > 0`. -/
def progressPointOf (sel : String) (w : Workout) : Option ProgressPoint :=
  match w.exercises.find? (nameMatches sel) with
  | some e =>
    if e.type ≠ ExerciseType.cardioKind then
      if (0 : WithBot ℚ) < jsMax (e.sets.map fun s => s.weight.getD 0) then
        some ⟨w.date, jsMax (e.sets.map fun s => s.weight.getD 0),
          jsMax (e.sets.map fun s => calculateOneRepMax (s.weight.getD 0) (s.reps.getD 0))⟩
      else none
    else none
  | none => none

/-- JS `array.push(p)` guarded on an optional value. -/
def pushOpt {β : Type} (acc : List β) (o : Option β) : List β :=
  match o with
  | some b => acc ++ [b]
  | none => acc

/-- Source `exerciseProgressData` from `StatsView`: collect the per-workout points
in collection order, then sort ascending by actual timestamp. -/
def exerciseProgressData (workouts : List Workout) (selectedExercise : String) :
    List ProgressPoint :=
  List.insertionSort progLe
    (workouts.foldl (fun acc w => pushOpt acc (progressPointOf selectedExercise w)) [])

lemma foldl_push_filterMap {α β : Type} (f : α → Option β) (l : List α) (acc : List β) :
    l.foldl (fun acc x => pushOpt acc (f x)) acc = acc ++ l.filterMap f := by
  induction l generalizing acc with
  | nil => simp
  | cons x rest ih =>
    rw [List.foldl_cons, ih]
    cases hf : f x <;> simp [pushOpt, hf, List.filterMap_cons]

lemma progressPointOf_char (sel : String) (w : Workout) (p : ProgressPoint)
    (h : progressPointOf sel w = some p) :
    p.fullDate = w.date ∧
    ∃ e, w.exercises.find? (nameMatches sel) = some e ∧ e.type ≠ ExerciseType.cardioKind ∧
      p.maxWeight = jsMax (e.sets.map fun s => s.weight.getD 0) ∧
      p.oneRepMax = jsMax (e.sets.map fun s => calculateOneRepMax (s.weight.getD 0) (s.reps.getD 0)) ∧
      (0 : WithBot ℚ) < p.maxWeight := by
  cases hf : w.exercises.find? (nameMatches sel) with
  | none => simp [progressPointOf, hf] at h
  | some e =>
    simp only [progressPointOf, hf] at h
    split_ifs at h with ht hm
    obtain rfl := Option.some.inj h
    exact ⟨rfl, e, rfl, ht, rfl, rfl, hm⟩

/-- C2.  Exercise progression series: the series is sorted ascending by
actual timestamp; it consists of exactly one point per workout whose first
case-insensitive name match is a non-cardio exercise with positive maximum
set weight; each point carries that workout's timestamp, the maximum weight
over the matched exercise's sets (missing weight as `0`) and the maximum
`estimate1RM(weight, reps)` over its sets; every emitted point has
`maxWeight > 0`, and a workout whose matched exercise has no positive set
weight contributes no point. -/
theorem exerciseProgressData_correct (ws : List Workout) (sel : String) :
    List.Pairwise progLe (exerciseProgressData ws sel) ∧
    List.Perm (exerciseProgressData ws sel) (ws.filterMap (progressPointOf sel)) ∧
    (∀ p ∈ exerciseProgressData ws sel, (0 : WithBot ℚ) < p.maxWeight) ∧
    (∀ w p, progressPointOf sel w = some p →
      p.fullDate = w.date ∧
      ∃ e, w.exercises.find? (nameMatches sel) = some e ∧ e.type ≠ ExerciseType.cardioKind ∧
        p.maxWeight = jsMax (e.sets.map fun s => s.weight.getD 0) ∧
        p.oneRepMax = jsMax (e.sets.map fun s => calculateOneRepMax (s.weight.getD 0) (s.reps.getD 0)) ∧
        (0 : WithBot ℚ) < p.maxWeight) ∧
    (∀ w e, w.exercises.find? (nameMatches sel) = some e → e.type ≠ ExerciseType.cardioKind →
      jsMax (e.sets.map fun s => s.weight.getD 0) ≤ 0 → progressPointOf sel w = none) := by
  have hperm : List.Perm (exerciseProgressData ws sel) (ws.filterMap (progressPointOf sel)) := by
    show List.Perm (List.insertionSort progLe
      (ws.foldl (fun acc w => pushOpt acc (progressPointOf sel w)) [])) _
    rw [foldl_push_filterMap, List.nil_append]
    exact List.perm_insertionSort progLe _
  refine ⟨List.sorted_insertionSort progLe _, hperm, ?_,
    fun w p h => progressPointOf_char sel w p h, ?_⟩
  · intro p hp
    have hp2 := hperm.mem_iff.mp hp
    obtain ⟨w, _, hfw⟩ := List.mem_filterMap.mp hp2
    exact (progressPointOf_char sel w p hfw).2.choose_spec.2.2.2.2
  · intro w e hf ht hle
    simp only [progressPointOf, hf]
    rw [if_pos ht, if_neg (not_lt.mpr hle)]

/-- A workout logging "Bench Press" with a single `100 × 1` set. -/
def wBench1 : Workout :=
  ⟨1, "day1",
    [⟨"Bench Press", ExerciseType.strength, [⟨some 1, some 100, none, none, none, true⟩]⟩], none⟩

/-- A workout logging "Bench Press" with only a zero-weight `0 × 5` set. -/
def wBench2 : Workout :=
  ⟨2, "day2",
    [⟨"Bench Press", ExerciseType.strength, [⟨some 5, some 0, none, none, none, true⟩]⟩], none⟩

/-- Witness for C2: "Bench Press" logged twice, once with weight `100` and
once with weight `0` on every set, yields a series with exactly one point,
that point has positive max weight (via the theorem), and the zero-weight
workout contributes no point (via the theorem). -/
theorem exerciseProgressData_correct_witness :
    exerciseProgressData [wBench1, wBench2] "Bench Press" =
      [ProgressPoint.mk 1 ((100 : ℚ) : WithBot ℚ) ((100 : ℚ) : WithBot ℚ)] ∧
    (0 : WithBot ℚ) < (ProgressPoint.mk 1 ((100 : ℚ) : WithBot ℚ) ((100 : ℚ) : WithBot ℚ)).maxWeight ∧
    progressPointOf "Bench Press" wBench2 = none :=
  ⟨by decide,
    (exerciseProgressData_correct [wBench1, wBench2] "Bench Press").2.2.1
      (ProgressPoint.mk 1 ((100 : ℚ) : WithBot ℚ) ((100 : ℚ) : WithBot ℚ)) (by decide),
    (exerciseProgressData_correct [wBench1, wBench2] "Bench Press").2.2.2.2 wBench2
      ⟨"Bench Press", ExerciseType.strength, [⟨some 5, some 0, none, none, none, true⟩]⟩
      (by decide) (by decide) (by decide)⟩

/-- A personal-record entry: best estimated 1RM and the date it was set. -/
structure PRRec where
  weight : WithBot ℚ
  date : Int
deriving DecidableEq

/-- Best estimated 1RM over an exercise instance's own sets (`Math.max` over
`calculateOneRepMax(weight || 0, reps || 0)`; `-Infinity` when no sets). -/
def bestSet1RM (e : Exercise) : WithBot ℚ :=
  jsMax (e.sets.map fun s => calculateOneRepMax (s.weight.getD 0) (s.reps.getD 0))

/-- One update of the records dictionary:
`if (!records[name] || best > records[name].weight) records[name] = {best, date}`.
The argument is `(name, date, best)`. -/
def procStep (recs : List (String × PRRec)) (x : String × Int × WithBot ℚ) :
    List (String × PRRec) :=
  match alookup x.1 recs with
  | none => recs ++ [(x.1, PRRec.mk x.2.2 x.2.1)]
  | some r => if r.weight < x.2.2 then aupsert x.1 (PRRec.mk x.2.2 x.2.1) recs else recs

/-- The records dictionary of `personalRecords` after the full scan, in key
insertion order (`Object.entries` order). -/
def recordsFold (workouts : List Workout) : List (String × PRRec) :=
  workouts.foldl (fun recs w =>
    w.exercises.foldl (fun recs e =>
      if e.type = ExerciseType.cardioKind then recs
      else procStep recs (e.name, w.date, bestSet1RM e)) recs) []

/-- Descending-by-best-value comparator of the records table
(`(a, b) => b[1].weight - a[1].weight`; two `-Infinity` values compare as a
tie, matching the NaN-comparator-as-zero rule). -/
def prLe (a b : String × PRRec) : Prop := b.2.weight ≤ a.2.weight

instance : DecidableRel prLe := fun a b =>
  inferInstanceAs (Decidable (b.2.weight ≤ a.2.weight))

instance : IsTotal (String × PRRec) prLe := ⟨fun a b => le_total b.2.weight a.2.weight⟩

instance : IsTrans (String × PRRec) prLe := ⟨fun _ _ _ h1 h2 => le_trans h2 h1⟩

/-- Source `personalRecords` from `StatsView`: sort the records descending by best
value (stable) and keep the first 5. -/
def personalRecords (workouts : List Workout) : List (String × PRRec) :=
  (List.insertionSort prLe (recordsFold workouts)).take 5

/-- The stream of non-cardio exercise instances as `(name, date, best1RM)`
triples, in scan order. -/
def prInstances (ws : List Workout) : List (String × Int × WithBot ℚ) :=
  ws.foldr (fun w acc =>
    ((w.exercises.filter fun e => !(e.type == ExerciseType.cardioKind)).map
      fun e => (e.name, w.date, bestSet1RM e)) ++ acc) []

/-- The `(date, best1RM)` pairs of the non-cardio instances named `n`, in
scan order. -/
def instancesOf (ws : List Workout) (n : String) : List (Int × WithBot ℚ) :=
  ((prInstances ws).filter fun x => x.1 == n).map fun x => x.2

/-- Maximum of a list of extended values (`⊥` when empty). -/
def listMaxB (l : List (WithBot ℚ)) : WithBot ℚ := l.foldr max ⊥

/-- The per-name running best: install when absent, replace under strict
greater-than. -/
def runBest (r : Option PRRec) (p : Int × WithBot ℚ) : Option PRRec :=
  match r with
  | none => some (PRRec.mk p.2 p.1)
  | some r0 => if r0.weight < p.2 then some (PRRec.mk p.2 p.1) else some r0

/-- The record left by scanning a pair list left to right with `runBest`
from nothing, computed from the right: the maximum value, dated at its
first (leftmost) achiever. -/
def bestRecord : List (Int × WithBot ℚ) → Option PRRec
  | [] => none
  | p :: t =>
    match bestRecord t with
    | none => some (PRRec.mk p.2 p.1)
    | some r => if p.2 < r.weight then some r else some (PRRec.mk p.2 p.1)

/-- Merge of two optional records, the left one winning ties. -/
def combineRec (a b : Option PRRec) : Option PRRec :=
  match a, b with
  | none, x => x
  | some r, none => some r
  | some r, some s => if r.weight < s.weight then some s else some r

lemma alookup_append_left {β : Type} (k : String) (l1 l2 : List (String × β)) (v : β)
    (h : alookup k l1 = some v) : alookup k (l1 ++ l2) = some v := by
  induction l1 with
  | nil => simp [alookup] at h
  | cons p t ih =>
    rcases eq_or_ne p.1 k with hk | hk
    · have h2 : some p.2 = some v := by simpa [alookup, hk] using h
      rw [List.cons_append]
      simpa [alookup, hk] using h2
    · have h2 : alookup k t = some v := by simpa [alookup, hk] using h
      rw [List.cons_append]
      simpa [alookup, hk] using ih h2

lemma alookup_append_right {β : Type} (k : String) (l1 l2 : List (String × β))
    (h : alookup k l1 = none) : alookup k (l1 ++ l2) = alookup k l2 := by
  induction l1 with
  | nil => simp
  | cons p t ih =>
    rcases eq_or_ne p.1 k with hk | hk
    · simp [alookup, hk] at h
    · have h2 : alookup k t = none := by simpa [alookup, hk] using h
      rw [List.cons_append]
      simpa [alookup, hk] using ih h2

lemma alookup_aupsert_self {β : Type} (k : String) (v : β) (l : List (String × β)) :
    alookup k (aupsert k v l) = some v := by
  induction l with
  | nil => simp [alookup, aupsert]
  | cons p t ih =>
    rcases eq_or_ne p.1 k with hk | hk
    · simp [alookup, aupsert, hk]
    · simp [alookup, aupsert, hk, ih]

lemma alookup_aupsert_ne {β : Type} (k k1 : String) (v : β) (l : List (String × β))
    (h : k1 ≠ k) : alookup k1 (aupsert k v l) = alookup k1 l := by
  have hk1 : k ≠ k1 := Ne.symm h
  induction l with
  | nil => simp [alookup, aupsert, hk1]
  | cons p t ih =>
    rcases eq_or_ne p.1 k with hk | hk
    · subst hk
      simp [alookup, aupsert, hk1]
    · simp [alookup, aupsert, hk, ih]

lemma alookup_procStep_eq (recs : List (String × PRRec)) (x : String × Int × WithBot ℚ) :
    alookup x.1 (procStep recs x) = runBest (alookup x.1 recs) x.2 := by
  cases hx : alookup x.1 recs with
  | none =>
    simp only [procStep, hx, runBest]
    rw [alookup_append_right x.1 recs _ hx]
    simp [alookup]
  | some r =>
    simp only [procStep, hx, runBest]
    by_cases hlt : r.weight < x.2.2
    · rw [if_pos hlt, if_pos hlt, alookup_aupsert_self]
    · rw [if_neg hlt, if_neg hlt, hx]

lemma alookup_procStep_ne (recs : List (String × PRRec)) (x : String × Int × WithBot ℚ)
    (n : String) (h : x.1 ≠ n) : alookup n (procStep recs x) = alookup n recs := by
  cases hx : alookup x.1 recs with
  | none =>
    simp only [procStep, hx]
    cases hn : alookup n recs with
    | none =>
      rw [alookup_append_right n recs _ hn]
      simp [alookup, h]
    | some v => rw [alookup_append_left n recs _ v hn]
  | some r =>
    simp only [procStep, hx]
    by_cases hlt : r.weight < x.2.2
    · rw [if_pos hlt, alookup_aupsert_ne _ _ _ _ (Ne.symm h)]
    · rw [if_neg hlt]

lemma alookup_foldl_procStep (l : List (String × Int × WithBot ℚ))
    (recs : List (String × PRRec)) (n : String) :
    alookup n (l.foldl procStep recs) =
      ((l.filter fun x => x.1 == n).map fun x => x.2).foldl runBest (alookup n recs) := by
  induction l generalizing recs with
  | nil => simp
  | cons x t ih =>
    rw [List.foldl_cons, ih]
    rcases eq_or_ne x.1 n with hx | hx
    · subst hx
      rw [alookup_procStep_eq]
      simp [List.filter_cons]
    · rw [alookup_procStep_ne recs x n hx]
      simp [List.filter_cons, hx]

lemma ex_fold_procStep (d : Int) (exs : List Exercise) (recs : List (String × PRRec)) :
    exs.foldl (fun recs e =>
      if e.type = ExerciseType.cardioKind then recs
      else procStep recs (e.name, d, bestSet1RM e)) recs =
    ((exs.filter fun e => !(e.type == ExerciseType.cardioKind)).map
      fun e => (e.name, d, bestSet1RM e)).foldl procStep recs := by
  induction exs generalizing recs with
  | nil => simp
  | cons e t ih =>
    rcases eq_or_ne e.type ExerciseType.cardioKind with ht | ht
    · simp [List.foldl_cons, ht, List.filter_cons, ih]
    · simp [List.foldl_cons, ht, List.filter_cons, ih]

lemma recordsFold_eq_proc (ws : List Workout) :
    recordsFold ws = (prInstances ws).foldl procStep [] := by
  suffices h : ∀ recs, ws.foldl (fun recs w =>
      w.exercises.foldl (fun recs e =>
        if e.type = ExerciseType.cardioKind then recs
        else procStep recs (e.name, w.date, bestSet1RM e)) recs) recs =
      (prInstances ws).foldl procStep recs from h []
  induction ws with
  | nil => intro recs; simp [prInstances]
  | cons w t ih =>
    intro recs
    have hblock : prInstances (w :: t) =
        ((w.exercises.filter fun e => !(e.type == ExerciseType.cardioKind)).map
          fun e => (e.name, w.date, bestSet1RM e)) ++ prInstances t := rfl
    rw [List.foldl_cons, ih, hblock, List.foldl_append, ex_fold_procStep]

lemma foldl_runBest_combine (l : List (Int × WithBot ℚ)) (a : Option PRRec) :
    l.foldl runBest a = combineRec a (bestRecord l) := by
  induction l generalizing a with
  | nil => cases a <;> rfl
  | cons p t ih =>
    rw [List.foldl_cons, ih]
    cases a with
    | none =>
      cases hbt : bestRecord t with
      | none => simp [runBest, combineRec, bestRecord, hbt]
      | some r => simp [runBest, combineRec, bestRecord, hbt]
    | some r0 =>
      cases hbt : bestRecord t with
      | none =>
        by_cases h1 : r0.weight < p.2 <;>
          simp [runBest, combineRec, bestRecord, hbt, h1]
      | some s =>
        by_cases h1 : r0.weight < p.2 <;> by_cases h2 : p.2 < s.weight
        · simp [runBest, combineRec, bestRecord, hbt, h1, h2, lt_trans h1 h2]
        · simp [runBest, combineRec, bestRecord, hbt, h1, h2]
        · simp [runBest, combineRec, bestRecord, hbt, h1, h2]
        · have h3 : ¬r0.weight < s.weight := fun hc =>
            h1 (lt_of_lt_of_le hc (not_lt.mp h2))
          simp [runBest, combineRec, bestRecord, hbt, h1, h2, h3]

lemma listMaxB_cons (b : WithBot ℚ) (t : List (WithBot ℚ)) :
    listMaxB (b :: t) = max b (listMaxB t) := rfl

lemma bestRecord_char (l : List (Int × WithBot ℚ)) (hne : l ≠ []) :
    ∃ r, bestRecord l = some r ∧ r.weight = listMaxB (l.map fun p => p.2) ∧
      l.find? (fun q => decide (q.2 = r.weight)) = some (r.date, r.weight) := by
  induction l with
  | nil => exact absurd rfl hne
  | cons p t ih =>
    rcases eq_or_ne t [] with ht | ht
    · subst ht
      refine ⟨PRRec.mk p.2 p.1, by simp [bestRecord], ?_, ?_⟩
      · show p.2 = listMaxB [p.2]
        simp [listMaxB, max_eq_left bot_le]
      · rw [List.find?_cons_of_pos _ (by simp)]
    · obtain ⟨r, hbr, hw, hf⟩ := ih ht
      by_cases h : p.2 < r.weight
      · refine ⟨r, by simp [bestRecord, hbr, h], ?_, ?_⟩
        · rw [List.map_cons, listMaxB_cons, ← hw, max_eq_right h.le]
        · rw [List.find?_cons_of_neg _ (by simp [h.ne])]
          exact hf
      · refine ⟨PRRec.mk p.2 p.1, by simp [bestRecord, hbr, h], ?_, ?_⟩
        · show p.2 = listMaxB ((p :: t).map fun p => p.2)
          rw [List.map_cons, listMaxB_cons, ← hw, max_eq_left (not_lt.mp h)]
        · rw [List.find?_cons_of_pos _ (by simp)]

lemma recordsFold_lookup (ws : List Workout) (n : String) :
    alookup n (recordsFold ws) = (instancesOf ws n).foldl runBest none := by
  rw [recordsFold_eq_proc, alookup_foldl_procStep]
  rfl

lemma recordsFold_lookup_char (ws : List Workout) (n : String)
    (h : instancesOf ws n ≠ []) :
    ∃ r, alookup n (recordsFold ws) = some r ∧
      r.weight = listMaxB ((instancesOf ws n).map fun p => p.2) ∧
      (instancesOf ws n).find? (fun q => decide (q.2 = r.weight)) = some (r.date, r.weight) := by
  obtain ⟨r, hbr, hw, hf⟩ := bestRecord_char (instancesOf ws n) h
  refine ⟨r, ?_, hw, hf⟩
  rw [recordsFold_lookup, foldl_runBest_combine, hbr]
  rfl

lemma alookup_eq_none_iff {β : Type} (k : String) (l : List (String × β)) :
    alookup k l = none ↔ k ∉ l.map Prod.fst := by
  induction l with
  | nil => simp [alookup]
  | cons p t ih =>
    rcases eq_or_ne p.1 k with hk | hk
    · simp [alookup, hk]
    · simp [alookup, hk, ih, Ne.symm hk]

lemma keys_aupsert {β : Type} (k : String) (v : β) (l : List (String × β))
    (h : alookup k l ≠ none) : (aupsert k v l).map Prod.fst = l.map Prod.fst := by
  induction l with
  | nil => simp [alookup] at h
  | cons p t ih =>
    rcases eq_or_ne p.1 k with hk | hk
    · simp [aupsert, hk]
    · have h2 : alookup k t ≠ none := by simpa [alookup, hk] using h
      simp [aupsert, hk, ih h2]

lemma nodup_keys_procStep (recs : List (String × PRRec)) (x : String × Int × WithBot ℚ)
    (h : (recs.map Prod.fst).Nodup) : ((procStep recs x).map Prod.fst).Nodup := by
  cases hx : alookup x.1 recs with
  | none =>
    have hnot : x.1 ∉ recs.map Prod.fst := (alookup_eq_none_iff _ _).mp hx
    simp only [procStep, hx, List.map_append, List.map_cons, List.map_nil]
    exact h.append (List.nodup_singleton _)
      (fun a ha hb => by simp at hb; subst hb; exact hnot ha)
  | some r =>
    simp only [procStep, hx]
    by_cases hlt : r.weight < x.2.2
    · rw [if_pos hlt, keys_aupsert _ _ _ (by simp [hx])]
      exact h
    · rw [if_neg hlt]
      exact h

lemma nodup_keys_foldl (l : List (String × Int × WithBot ℚ)) (recs : List (String × PRRec))
    (h : (recs.map Prod.fst).Nodup) : (((l.foldl procStep recs)).map Prod.fst).Nodup := by
  induction l generalizing recs with
  | nil => exact h
  | cons x t ih => exact ih _ (nodup_keys_procStep recs x h)

lemma nodup_keys_recordsFold (ws : List Workout) :
    ((recordsFold ws).map Prod.fst).Nodup := by
  rw [recordsFold_eq_proc]
  exact nodup_keys_foldl _ [] (by simp)

lemma mem_of_alookup_eq_some {β : Type} {k : String} {v : β} {l : List (String × β)}
    (h : alookup k l = some v) : (k, v) ∈ l := by
  induction l with
  | nil => simp [alookup] at h
  | cons p t ih =>
    obtain ⟨k1, v1⟩ := p
    rcases eq_or_ne k1 k with hk | hk
    · subst hk
      have h2 : some v1 = some v := by simpa [alookup] using h
      obtain rfl := Option.some.inj h2
      exact List.mem_cons_self _ _
    · have h2 : alookup k t = some v := by simpa [alookup, hk] using h
      exact List.mem_cons_of_mem _ (ih h2)

lemma alookup_eq_some_of_mem_nodup {β : Type} {k : String} {v : β} {l : List (String × β)}
    (hmem : (k, v) ∈ l) (h : (l.map Prod.fst).Nodup) : alookup k l = some v := by
  induction l with
  | nil => simp at hmem
  | cons p t ih =>
    obtain ⟨k1, v1⟩ := p
    rcases List.mem_cons.mp hmem with heq | hmem2
    · obtain ⟨rfl, rfl⟩ := Prod.mk.injEq .. ▸ heq
      simp [alookup]
    · have hk : k1 ≠ k := by
        intro hh
        subst hh
        have hmemk : k1 ∈ t.map Prod.fst := by
          exact List.mem_map_of_mem Prod.fst hmem2
        exact (List.nodup_cons.mp (by simpa using h)).1 hmemk
      have hnd : (t.map Prod.fst).Nodup := (List.nodup_cons.mp (by simpa using h)).2
      simpa [alookup, hk] using ih hmem2 hnd

lemma alookup_ne_none_of_mem {β : Type} {k : String} {v : β} {l : List (String × β)}
    (hmem : (k, v) ∈ l) : alookup k l ≠ none := by
  intro hnone
  exact (alookup_eq_none_iff k l).mp hnone (List.mem_map_of_mem Prod.fst hmem)

/-- C3.  Personal records: the output has at most 5 entries, sorted
descending by best value; each output entry's value is the maximum best
estimated 1RM over all non-cardio instances of that exercise name, and its
date is the date of the first instance achieving that maximum (a later tie
does not replace the earlier record, by the strict greater-than update); and
the pre-truncation table has one record per exercise name that has at least
one non-cardio instance. -/
theorem personalRecords_correct (ws : List Workout) :
    (personalRecords ws).length ≤ 5 ∧
    List.Pairwise prLe (personalRecords ws) ∧
    (∀ n r, (n, r) ∈ personalRecords ws →
      r.weight = listMaxB ((instancesOf ws n).map fun p => p.2) ∧
      (instancesOf ws n).find? (fun q => decide (q.2 = r.weight)) = some (r.date, r.weight)) ∧
    (∀ n, (∃ r, (n, r) ∈ recordsFold ws) ↔ instancesOf ws n ≠ []) := by
  have hsorted := List.sorted_insertionSort prLe (recordsFold ws)
  have hperm := List.perm_insertionSort prLe (recordsFold ws)
  have hmemrf : ∀ n r, (n, r) ∈ personalRecords ws → (n, r) ∈ recordsFold ws := by
    intro n r h
    have h1 : (n, r) ∈ List.insertionSort prLe (recordsFold ws) :=
      (List.take_sublist 5 _).subset h
    exact hperm.mem_iff.mp h1
  refine ⟨?_, List.Pairwise.sublist (List.take_sublist 5 _) hsorted, ?_, ?_⟩
  · simp only [personalRecords, List.length_take]
    omega
  · intro n r h
    have hrf := hmemrf n r h
    have halk : alookup n (recordsFold ws) = some r :=
      alookup_eq_some_of_mem_nodup hrf (nodup_keys_recordsFold ws)
    have hne : instancesOf ws n ≠ [] := by
      intro hnil
      rw [recordsFold_lookup, hnil] at halk
      simp at halk
    obtain ⟨r2, halk2, hw2, hf2⟩ := recordsFold_lookup_char ws n hne
    rw [halk] at halk2
    obtain rfl := Option.some.inj halk2
    exact ⟨hw2, hf2⟩
  · intro n
    constructor
    · rintro ⟨r, hmem⟩ hnil
      have hne := alookup_ne_none_of_mem hmem
      rw [recordsFold_lookup, hnil] at hne
      exact hne rfl
    · intro hne
      obtain ⟨r, halk, _, _⟩ := recordsFold_lookup_char ws n hne
      exact ⟨r, mem_of_alookup_eq_some halk⟩

/-- A workout with three strength exercises, each logged once. -/
def wThree : Workout :=
  ⟨7, "trio",
    [⟨"Squat", ExerciseType.strength, [⟨some 1, some 140, none, none, none, true⟩]⟩,
     ⟨"Bench Press", ExerciseType.strength, [⟨some 1, some 100, none, none, none, true⟩]⟩,
     ⟨"Deadlift", ExerciseType.strength, [⟨some 1, some 180, none, none, none, true⟩]⟩], none⟩

/-- Witness for C3: with 3 exercises each appearing once, all 3 appear,
sorted descending by best value, and the top entry's value is the maximum
over its instances (via the theorem). -/
theorem personalRecords_correct_witness :
    personalRecords [wThree] =
      [("Deadlift", PRRec.mk ((180 : ℚ) : WithBot ℚ) 7),
       ("Squat", PRRec.mk ((140 : ℚ) : WithBot ℚ) 7),
       ("Bench Press", PRRec.mk ((100 : ℚ) : WithBot ℚ) 7)] ∧
    (PRRec.mk ((180 : ℚ) : WithBot ℚ) 7).weight =
      listMaxB ((instancesOf [wThree] "Deadlift").map fun p => p.2) :=
  ⟨by decide,
    ((personalRecords_correct [wThree]).2.2.1 "Deadlift"
      (PRRec.mk ((180 : ℚ) : WithBot ℚ) 7) (by decide)).1⟩

lemma mem_prInstances {ws : List Workout} {x : String × Int × WithBot ℚ} :
    x ∈ prInstances ws ↔
      ∃ w, w ∈ ws ∧ ∃ e, e ∈ w.exercises ∧ e.type ≠ ExerciseType.cardioKind ∧
        x = (e.name, w.date, bestSet1RM e) := by
  induction ws with
  | nil => simp [prInstances]
  | cons w t ih =>
    have hblock : prInstances (w :: t) =
        ((w.exercises.filter fun e => !(e.type == ExerciseType.cardioKind)).map
          fun e => (e.name, w.date, bestSet1RM e)) ++ prInstances t := rfl
    rw [hblock, List.mem_append, ih]
    simp only [List.mem_map, List.mem_filter, List.mem_cons]
    constructor
    · rintro (⟨e, ⟨he, hty⟩, hx⟩ | ⟨w1, hw1, e, he, hty, hx⟩)
      · exact ⟨w, Or.inl rfl, e, he, by simpa using hty, hx.symm⟩
      · exact ⟨w1, Or.inr hw1, e, he, hty, hx⟩
    · rintro ⟨w1, hw1 | hw1, e, he, hty, hx⟩
      · subst hw1
        exact Or.inl ⟨e, ⟨he, by simpa using hty⟩, hx.symm⟩
      · exact Or.inr ⟨w1, hw1, e, he, hty, hx⟩

lemma mem_instancesOf {ws : List Workout} {n : String} {y : Int × WithBot ℚ} :
    y ∈ instancesOf ws n ↔
      ∃ w, w ∈ ws ∧ ∃ e, e ∈ w.exercises ∧ e.type ≠ ExerciseType.cardioKind ∧
        e.name = n ∧ y = (w.date, bestSet1RM e) := by
  simp only [instancesOf, List.mem_map, List.mem_filter, mem_prInstances]
  constructor
  · rintro ⟨x, ⟨⟨w, hw, e, he, hty, rfl⟩, hxn⟩, rfl⟩
    exact ⟨w, hw, e, he, hty, by simpa using hxn, rfl⟩
  · rintro ⟨w, hw, e, he, hty, hn, rfl⟩
    exact ⟨(e.name, w.date, bestSet1RM e), ⟨⟨w, hw, e, he, hty, rfl⟩, by simpa using hn⟩, rfl⟩

lemma listMaxB_eq_bot (l : List (WithBot ℚ)) (h : ∀ b ∈ l, b = ⊥) : listMaxB l = ⊥ := by
  induction l with
  | nil => rfl
  | cons b t ih =>
    rw [listMaxB_cons, h b (List.mem_cons_self b t),
      ih (fun x hx => h x (List.mem_cons_of_mem _ hx))]
    simp

/-- C10.  Personal records has no `maxWeight > 0` guard: a non-cardio
exercise instance with an empty sets list whose name has no set-bearing
non-cardio instance anywhere in the collection still produces a records
entry for that name, and its best value is `Math.max()` of nothing —
`-Infinity` (`⊥`) in the source semantics. -/
theorem personalRecords_empty_sets_entry (ws : List Workout) (n : String)
    (h1 : ∃ w, w ∈ ws ∧ ∃ e, e ∈ w.exercises ∧ e.type ≠ ExerciseType.cardioKind ∧
      e.name = n ∧ e.sets = [])
    (h2 : ∀ w, w ∈ ws → ∀ e, e ∈ w.exercises → e.type ≠ ExerciseType.cardioKind →
      e.name = n → e.sets = []) :
    (alookup n (recordsFold ws)).map PRRec.weight = some (⊥ : WithBot ℚ) := by
  have hne : instancesOf ws n ≠ [] := by
    obtain ⟨w, hw, e, he, hty, hn, _⟩ := h1
    intro hnil
    have hm : (w.date, bestSet1RM e) ∈ instancesOf ws n :=
      mem_instancesOf.mpr ⟨w, hw, e, he, hty, hn, rfl⟩
    rw [hnil] at hm
    simp at hm
  have hbot : ∀ y ∈ instancesOf ws n, y.2 = (⊥ : WithBot ℚ) := by
    intro y hy
    obtain ⟨w, hw, e, he, hty, hn, rfl⟩ := mem_instancesOf.mp hy
    have hs := h2 w hw e he hty hn
    simp [bestSet1RM, jsMax, hs]
  obtain ⟨r, halk, hw, _⟩ := recordsFold_lookup_char ws n hne
  have hmax : listMaxB ((instancesOf ws n).map fun p => p.2) = ⊥ :=
    listMaxB_eq_bot _ (fun b hb => by
      obtain ⟨y, hy, rfl⟩ := List.mem_map.mp hb
      exact hbot y hy)
  rw [halk]
  show some r.weight = some (⊥ : WithBot ℚ)
  exact congrArg some (hw.trans hmax)

/-- A collection with one strength exercise that has an empty sets list and
one genuinely lifted exercise. -/
def wEmptySets : Workout :=
  ⟨5, "log",
    [⟨"Ghost Press", ExerciseType.strength, []⟩,
     ⟨"Squat", ExerciseType.strength, [⟨some 1, some 100, none, none, none, true⟩]⟩], none⟩

/-- Witness for C10: the empty-sets exercise gets a `⊥`-valued record entry
(via the theorem) and that entry appears in the top-5 output. -/
theorem personalRecords_empty_sets_entry_witness :
    (alookup "Ghost Press" (recordsFold [wEmptySets])).map PRRec.weight =
      some (⊥ : WithBot ℚ) ∧
    ("Ghost Press", PRRec.mk (⊥ : WithBot ℚ) 5) ∈ personalRecords [wEmptySets] :=
  ⟨personalRecords_empty_sets_entry [wEmptySets] "Ghost Press" (by decide) (by decide),
    by decide⟩

/-- JS truthiness default `x || d`: a missing value — and also a present
`0`, which is falsy — yields the default. -/
def jsOr (x : Option ℚ) (d : ℚ) : ℚ :=
  match x with
  | none => d
  | some v => if v = 0 then d else v

/-- Left-pad a digit string with zeros to `f` digits. -/
def padZeros (s : String) (f : ℕ) : String :=
  String.mk (List.replicate (f - s.length) '0') ++ s

/-- JS `Number.prototype.toFixed(f)`: the integer `n` nearest to `x * 10^f`
(ties toward the larger `n`, i.e. `⌊x * 10^f + 1/2⌋`), rendered with `f`
digits after the point.  The engine only formats non-negative values. -/
def toFixed (x : ℚ) (f : ℕ) : String :=
  let n : ℤ := ⌊x * (10 : ℚ) ^ f + 1 / 2⌋
  let sign : String := if n < 0 then "-" else ""
  if f = 0 then sign ++ Nat.repr (n.natAbs / 10 ^ f)
  else sign ++ Nat.repr (n.natAbs / 10 ^ f) ++ "." ++ padZeros (Nat.repr (n.natAbs % 10 ^ f)) f

/-- Output shape of `crazyStats` (the locale-dependent favorite-day display
string is presentation output and not embedded; no claim concerns it). -/
structure CrazyStats where
  durationHours : String
  heaviestWeight : ℚ
  heaviestName : String
  pyramidStones : String
  tRexs : String
  spaceShuttles : String
  marathons : String
  englishChannels : String
  everests : String
deriving DecidableEq

/-- Heaviest-lift scan step: strength sets only, strict greater-than, so the
first occurrence of a tied maximum wins. -/
def heavyStep (acc : ℚ × String) (e : Exercise) : ℚ × String :=
  if e.type ≠ ExerciseType.cardioKind then
    e.sets.foldl (fun acc s =>
      if acc.1 < s.weight.getD 0 then (s.weight.getD 0, e.name) else acc) acc
  else acc

/-- Source `crazyStats` from `StatsView`: total duration (JS-defaulted to 60),
heaviest lift, and the unit-keyed benchmark feats over the lifetime volume
and distance. -/
def crazyStats (workouts : List Workout) (isMetric : Bool) : CrazyStats :=
  let totalDuration : ℚ := workouts.foldl (fun acc w => acc + jsOr w.durationMinutes 60) 0
  let heavy : ℚ × String := workouts.foldl (fun acc w => w.exercises.foldl heavyStep acc) (0, "")
  let volume := (lifetimeStats workouts).volume
  let distance := (lifetimeStats workouts).distance
  let stoneWeight : ℚ := if isMetric then 2500 else 5500
  let tRexWeight : ℚ := if isMetric then 8000 else 15000
  let shuttleWeight : ℚ := if isMetric then 75000 else 165000
  let marathonDist : ℚ := if isMetric then 42.2 else 26.2
  let channelDist : ℚ := if isMetric then 33 else 21
  let everestDist : ℚ := if isMetric then 8.85 else 5.5
  { durationHours := toFixed (totalDuration / 60) 1
    heaviestWeight := heavy.1
    heaviestName := heavy.2
    pyramidStones := toFixed (volume / stoneWeight) 1
    tRexs := toFixed (volume / tRexWeight) 2
    spaceShuttles := toFixed (volume / shuttleWeight) 3
    marathons := toFixed (distance / marathonDist) 1
    englishChannels := toFixed (distance / channelDist) 2
    everests := toFixed (distance / everestDist) 2 }

/-- A collection whose lifetime strength volume is `5000` (`1000 × 5`). -/
def wBigVolume : Workout :=
  ⟨0, "big",
    [⟨"Leg Press", ExerciseType.strength, [⟨some 5, some 1000, none, none, none, true⟩]⟩], none⟩

lemma floor_toFixed_5000_2500 :
    ⌊(5000 : ℚ) / 2500 * (10 : ℚ) ^ (1 : ℕ) + 1 / 2⌋ = (20 : ℤ) := by
  rw [Int.floor_eq_iff]
  norm_num

lemma toFixed_5000_2500 : toFixed ((5000 : ℚ) / 2500) 1 = "2.0" := by
  simp only [toFixed]
  rw [floor_toFixed_5000_2500]
  rfl

lemma wBigVolume_volume : (lifetimeStats [wBigVolume]).volume = 5000 := by
  show (List.foldl wStep ⟨0, 0, 0, 0, 0, []⟩ [wBigVolume]).volume = 5000
  rw [foldl_wStep_char]
  simp [exVolumeSpec, wBigVolume]
  norm_num

/-- C8.  Feats benchmarks: for every collection, the mass feats are the
lifetime volume divided by the unit-keyed literal constants — metric
2500 / 8000 / 75000, imperial 5500 / 15000 / 165000 — formatted to 1, 2 and
3 decimal places, and the distance feats are the lifetime distance divided
by metric 42.2 / 33 / 8.85, imperial 26.2 / 21 / 5.5, formatted to 1, 2 and
2 decimal places; in particular a metric collection with `totalVolume =
5000` yields `pyramidStones = "2.0"`. -/
theorem crazyStats_feats (ws : List Workout) :
    ((crazyStats ws true).pyramidStones = toFixed ((lifetimeStats ws).volume / 2500) 1 ∧
     (crazyStats ws true).tRexs = toFixed ((lifetimeStats ws).volume / 8000) 2 ∧
     (crazyStats ws true).spaceShuttles = toFixed ((lifetimeStats ws).volume / 75000) 3 ∧
     (crazyStats ws true).marathons = toFixed ((lifetimeStats ws).distance / 42.2) 1 ∧
     (crazyStats ws true).englishChannels = toFixed ((lifetimeStats ws).distance / 33) 2 ∧
     (crazyStats ws true).everests = toFixed ((lifetimeStats ws).distance / 8.85) 2) ∧
    ((crazyStats ws false).pyramidStones = toFixed ((lifetimeStats ws).volume / 5500) 1 ∧
     (crazyStats ws false).tRexs = toFixed ((lifetimeStats ws).volume / 15000) 2 ∧
     (crazyStats ws false).spaceShuttles = toFixed ((lifetimeStats ws).volume / 165000) 3 ∧
     (crazyStats ws false).marathons = toFixed ((lifetimeStats ws).distance / 26.2) 1 ∧
     (crazyStats ws false).englishChannels = toFixed ((lifetimeStats ws).distance / 21) 2 ∧
     (crazyStats ws false).everests = toFixed ((lifetimeStats ws).distance / 5.5) 2) ∧
    ((lifetimeStats [wBigVolume]).volume = 5000 ∧
     (crazyStats [wBigVolume] true).pyramidStones = "2.0") := by
  refine ⟨⟨rfl, rfl, rfl, rfl, rfl, rfl⟩, ⟨rfl, rfl, rfl, rfl, rfl, rfl⟩,
    wBigVolume_volume, ?_⟩
  have h : (crazyStats [wBigVolume] true).pyramidStones =
      toFixed ((lifetimeStats [wBigVolume]).volume / 2500) 1 := rfl
  rw [h, wBigVolume_volume, toFixed_5000_2500]

/-- The total session duration as C9 words it: the default of 60 applied
only to workouts whose `durationMinutes` field is missing; a present value
— including a present `0` — used as given. -/
def claimTotalDuration (ws : List Workout) : ℚ :=
  (ws.map fun w =>
    match w.durationMinutes with
    | none => (60 : ℚ)
    | some v => v).sum

/-- A workout whose `durationMinutes` is present and equal to `0`. -/
def wZeroDuration : Workout := ⟨0, "quick", [], some 0⟩

lemma floor_toFixed_one : ⌊(1 : ℚ) * (10 : ℚ) ^ (1 : ℕ) + 1 / 2⌋ = (10 : ℤ) := by
  rw [Int.floor_eq_iff]
  norm_num

lemma toFixed_one : toFixed (1 : ℚ) 1 = "1.0" := by
  simp only [toFixed]
  rw [floor_toFixed_one]
  rfl

lemma floor_toFixed_zero : ⌊(0 : ℚ) * (10 : ℚ) ^ (1 : ℕ) + 1 / 2⌋ = (0 : ℤ) := by
  rw [Int.floor_eq_iff]
  norm_num

lemma toFixed_zero : toFixed (0 : ℚ) 1 = "0.0" := by
  simp only [toFixed]
  rw [floor_toFixed_zero]
  rfl

/-- C9 (counterexample).  The claim says the default of 60 is applied
only to workouts whose `durationMinutes` is missing, a present `0` being
used as given; but for a collection with one workout whose
`durationMinutes` is present and `0`, the code's `w.durationMinutes || 60`
treats the falsy `0` as missing: the code reports `"1.0"` hours while the
claim's formula gives `"0.0"`. -/
theorem crazyStats_durationHours_claim_false :
    (crazyStats [wZeroDuration] true).durationHours = "1.0" ∧
    toFixed (claimTotalDuration [wZeroDuration] / 60) 1 = "0.0" ∧
    (crazyStats [wZeroDuration] true).durationHours ≠
      toFixed (claimTotalDuration [wZeroDuration] / 60) 1 := by
  have hcode : (crazyStats [wZeroDuration] true).durationHours =
      toFixed (((0 : ℚ) + 60) / 60) 1 := rfl
  have hc1 : (((0 : ℚ) + 60) / 60) = 1 := by norm_num
  have hspec : toFixed (claimTotalDuration [wZeroDuration] / 60) 1 =
      toFixed (((0 : ℚ) + 0) / 60) 1 := rfl
  have hc0 : (((0 : ℚ) + 0) / 60) = 0 := by norm_num
  refine ⟨?_, ?_, ?_⟩
  · rw [hcode, hc1, toFixed_one]
  · rw [hspec, hc0, toFixed_zero]
  · rw [hcode, hc1, toFixed_one, hspec, hc0, toFixed_zero]
    decide

/-- C9 (amended).  Total time-in-session: the hours feat is the sum over
all workouts of `durationMinutes`, where the default of 60 is applied to
workouts whose `durationMinutes` is missing or is a present `0` (JS falsy),
and any other present value is used as given, divided by 60 and formatted
to 1 decimal place. -/
theorem crazyStats_durationHours_correct (ws : List Workout) (isMetric : Bool) :
    (crazyStats ws isMetric).durationHours =
      toFixed ((ws.map fun w =>
        match w.durationMinutes with
        | none => (60 : ℚ)
        | some v => if v = 0 then 60 else v).sum / 60) 1 := by
  have h : ws.foldl (fun acc w => acc + jsOr w.durationMinutes 60) 0
      = (ws.map fun w =>
          match w.durationMinutes with
          | none => (60 : ℚ)
          | some v => if v = 0 then 60 else v).sum := by
    have h2 := foldl_add_sum (fun w => jsOr w.durationMinutes 60) ws 0
    simpa [jsOr] using h2
  show toFixed ((ws.foldl (fun acc w => acc + jsOr w.durationMinutes 60) 0) / 60) 1 = _
  rw [h]
